import Mathlib

/-!
# Verification of the dual-source audio capture engine

Shallow embedding of `AudioRecorder/recorder.py` (ColdCallMonitor): device
enumeration and classification, the capture-session lifecycle (`start` /
`stop`), the stop-time mixdown, the level monitor, and the WAV encoder.

Samples are `float32` in the source; they are modelled here as exact
rationals, so the arithmetic identities of the mixdown (`0.5*mic +
0.5*desktop`, peak normalisation to `0.95`) hold exactly.  Device names are
modelled as lists of characters, with Python's case-insensitive substring
test translated to an explicit contiguous-subsequence check after
`Char.toLower`.  Thread scheduling is outside the model: `stop` is evaluated
on the frozen buffers that remain once the workers have been joined, exactly
the data the source reads under its lock.
-/

namespace ColdCallMonitor

/-- A mono audio sample (`float32` in the source, modelled exactly). -/
abbrev Sample := ℚ

/-- One `SampleChunk`: the mono block a capture worker appends per device
read (`mono.copy()` in `_record_device`). -/
abbrev Chunk := List Sample

/-- `np.abs(xs).max()` as used on the combined mix and on level-meter chunks.
The source only evaluates it on non-empty arrays; folding `max` over the
absolute values with neutral element `0` agrees with it there, since every
`|x|` is non-negative. -/
def peakAbs (xs : List ℚ) : ℚ := (xs.map (fun x => |x|)).foldr max 0

/-- The mutable state of the Python `AudioRecorder` object: the
`is_recording` flag and the two per-source chunk buffers. -/
structure AudioRecorderState where
  is_recording : Bool
  mic_data : List Chunk
  desktop_data : List Chunk
deriving DecidableEq

/-- Lines 718-720 of `recorder.py`:
`combined = (mic_audio[:min_len] * 0.5) + (desktop_audio[:min_len] * 0.5)`
with `min_len = min(len(mic_audio), len(desktop_audio))`. -/
def mixCombine (mic desk : List ℚ) : List ℚ :=
  List.zipWith (fun m d => m * (1 / 2) + d * (1 / 2))
    (mic.take (min mic.length desk.length))
    (desk.take (min mic.length desk.length))

/-- Lines 716-730 of `recorder.py`: the combine/normalise block of
`AudioRecorder.stop`.  `none` stands for the Python `None` left when a
source's chunk list was empty (`np.concatenate` is guarded by truthiness).
When both sources are present and `min_len > 0`, the mix is normalised to a
peak of `0.95` unless the peak is `0`; when both are present but `min_len =
0` the function falls through to `np.array([])`; a single present source is
returned unchanged. -/
def mixdown (micAudio desktopAudio : Option (List ℚ)) : List ℚ :=
  match micAudio, desktopAudio with
  | some mic, some desk =>
      if 0 < min mic.length desk.length then
        let combined := mixCombine mic desk
        if 0 < peakAbs combined then
          combined.map (fun x => x / peakAbs combined * (19 / 20))
        else combined
      else []
  | some mic, none => mic
  | none, some desk => desk
  | none, none => []

/-- `AudioRecorder.stop` (lines 688-730): clears the recording flag, reads
the two buffers (frozen once the workers are joined), concatenates each
non-empty one, and mixes.  The buffers themselves are never written. -/
def AudioRecorder.stop (s : AudioRecorderState) : AudioRecorderState × List ℚ :=
  ({ s with is_recording := false },
   mixdown (if s.mic_data.isEmpty then none else some s.mic_data.flatten)
           (if s.desktop_data.isEmpty then none else some s.desktop_data.flatten))

theorem peakAbs_cons (x : ℚ) (t : List ℚ) : peakAbs (x :: t) = max |x| (peakAbs t) := rfl

theorem peakAbs_nonneg (xs : List ℚ) : 0 ≤ peakAbs xs := by
  induction xs with
  | nil => exact le_refl 0
  | cons x t ih => exact le_trans ih (by rw [peakAbs_cons]; exact le_max_right _ _)

theorem abs_le_peakAbs {x : ℚ} {xs : List ℚ} (h : x ∈ xs) : |x| ≤ peakAbs xs := by
  induction xs with
  | nil => cases h
  | cons a t ih =>
      rw [peakAbs_cons]
      rcases List.mem_cons.mp h with rfl | h
      · exact le_max_left _ _
      · exact le_trans (ih h) (le_max_right _ _)

theorem peakAbs_pos {x : ℚ} {xs : List ℚ} (hx : x ∈ xs) (hne : x ≠ 0) :
    0 < peakAbs xs :=
  lt_of_lt_of_le (abs_pos.mpr hne) (abs_le_peakAbs hx)

theorem peakAbs_map_mul (xs : List ℚ) {k : ℚ} (hk : 0 ≤ k) :
    peakAbs (xs.map (fun x => x * k)) = peakAbs xs * k := by
  induction xs with
  | nil => simp [peakAbs]
  | cons a t ih =>
      simp only [List.map_cons, peakAbs_cons, ih]
      rw [max_mul_of_nonneg _ _ hk, abs_mul, abs_of_nonneg hk]

theorem peakAbs_replicate_zero (n : Nat) :
    peakAbs (List.replicate n (0 : ℚ)) = 0 := by
  induction n with
  | zero => rfl
  | succ n ih => simp [List.replicate_succ, peakAbs_cons, ih]

theorem length_mixCombine (mic desk : List ℚ) :
    (mixCombine mic desk).length = min mic.length desk.length := by
  simp only [mixCombine, List.length_zipWith, List.length_take]
  omega

theorem flatten_length_of_chunks {K : Nat} {l : List Chunk}
    (h : ∀ c ∈ l, c.length = K) : l.flatten.length = l.length * K := by
  induction l with
  | nil => simp
  | cons c t ih =>
      have hc : c.length = K := h c (by simp)
      have ht : t.flatten.length = t.length * K :=
        ih (fun d hd => h d (List.mem_cons_of_mem _ hd))
      simp [List.flatten_cons, hc, ht, Nat.succ_mul, Nat.add_comm]

theorem min_mul_right (a b k : Nat) : min (a * k) (b * k) = min a b * k := by
  rcases Nat.le_total a b with h | h
  · rw [Nat.min_eq_left (Nat.mul_le_mul_right k h), Nat.min_eq_left h]
  · rw [Nat.min_eq_right (Nat.mul_le_mul_right k h), Nat.min_eq_right h]

/-- Claim C1: with the mic buffer holding `N` chunks of `K` samples and the
desktop buffer `M` chunks of `K` samples (`N ≠ M`, both non-zero), `stop`
returns a mix of exactly `min N M * K` samples: each concatenated source is
truncated to the shorter length before combining. -/
theorem stop_mixed_length (s : AudioRecorderState) (N M K : Nat)
    (hN : s.mic_data.length = N) (hM : s.desktop_data.length = M)
    (hmK : ∀ c ∈ s.mic_data, c.length = K)
    (hdK : ∀ c ∈ s.desktop_data, c.length = K)
    (hN0 : 0 < N) (hM0 : 0 < M) (hNM : N ≠ M) :
    ((AudioRecorder.stop s).2).length = min N M * K := by
  have hm : s.mic_data.isEmpty = false := by
    rw [List.isEmpty_eq_false]
    intro h
    rw [h] at hN
    simp at hN
    omega
  have hd : s.desktop_data.isEmpty = false := by
    rw [List.isEmpty_eq_false]
    intro h
    rw [h] at hM
    simp at hM
    omega
  have hml : s.mic_data.flatten.length = N * K := by
    rw [flatten_length_of_chunks hmK, hN]
  have hdl : s.desktop_data.flatten.length = M * K := by
    rw [flatten_length_of_chunks hdK, hM]
  simp only [AudioRecorder.stop, hm, hd, Bool.false_eq_true, if_false, mixdown,
    hml, hdl, min_mul_right]
  by_cases hK : 0 < min N M * K
  · rw [if_pos hK]
    by_cases hp : 0 < peakAbs (mixCombine s.mic_data.flatten s.desktop_data.flatten)
    · rw [if_pos hp, List.length_map, length_mixCombine, hml, hdl, min_mul_right]
    · rw [if_neg hp, length_mixCombine, hml, hdl, min_mul_right]
  · rw [if_neg hK]
    have h0 : min N M * K = 0 := Nat.le_zero.mp (Nat.not_lt.mp hK)
    simp [h0]

theorem stop_mixed_length_spot :
    (∀ c ∈ ([[1 / 2]] : List Chunk), c.length = 1) ∧
    ((AudioRecorder.stop ⟨true, [[1 / 2]], [[1 / 4], [1 / 4]]⟩).2).length =
      min 1 2 * 1 :=
  ⟨by decide,
   stop_mixed_length ⟨true, [[1 / 2]], [[1 / 4], [1 / 4]]⟩ 1 2 1 rfl rfl
     (by decide) (by decide) (by decide) (by decide) (by decide)⟩

/-- Claim C7: when exactly one source produced samples, `stop` returns that
source's concatenation element-for-element unchanged — no `0.5` weighting,
no truncation, no normalisation. -/
theorem stop_single_source (s : AudioRecorderState) :
    (s.mic_data ≠ [] → s.desktop_data = [] →
       (AudioRecorder.stop s).2 = s.mic_data.flatten) ∧
    (s.mic_data = [] → s.desktop_data ≠ [] →
       (AudioRecorder.stop s).2 = s.desktop_data.flatten) := by
  constructor
  · intro hm hd
    have hm' : s.mic_data.isEmpty = false := List.isEmpty_eq_false.mpr hm
    simp [AudioRecorder.stop, hm', hd, mixdown]
  · intro hm hd
    have hd' : s.desktop_data.isEmpty = false := List.isEmpty_eq_false.mpr hd
    simp [AudioRecorder.stop, hm, hd', mixdown]

theorem stop_single_source_spot :
    (([[1 / 3]] : List Chunk) ≠ []) ∧
    (AudioRecorder.stop ⟨false, [[1 / 3]], []⟩).2 =
      ([[1 / 3]] : List Chunk).flatten :=
  ⟨by decide, (stop_single_source ⟨false, [[1 / 3]], []⟩).1 (by decide) rfl⟩

/-- Claim C2: when both sources produced samples and the combined sequence
`0.5*mic + 0.5*desktop` is not identically zero, the sequence returned by
`stop` has peak absolute amplitude exactly `0.95` (exact in the rational
model): the combined sequence is scaled by `0.95` divided by its peak. -/
theorem stop_peak_normalized (s : AudioRecorderState)
    (hm : s.mic_data ≠ []) (hd : s.desktop_data ≠ [])
    (hnz : ∃ x ∈ mixCombine s.mic_data.flatten s.desktop_data.flatten, x ≠ 0) :
    peakAbs (AudioRecorder.stop s).2 = 19 / 20 := by
  obtain ⟨x, hx, hx0⟩ := hnz
  set combined := mixCombine s.mic_data.flatten s.desktop_data.flatten with hc
  have hp : 0 < peakAbs combined := peakAbs_pos hx hx0
  have hlen : 0 < min s.mic_data.flatten.length s.desktop_data.flatten.length := by
    have h1 : 0 < combined.length := List.length_pos.mpr (List.ne_nil_of_mem hx)
    rwa [hc, length_mixCombine] at h1
  have hm' : s.mic_data.isEmpty = false := List.isEmpty_eq_false.mpr hm
  have hd' : s.desktop_data.isEmpty = false := List.isEmpty_eq_false.mpr hd
  simp only [AudioRecorder.stop, hm', hd', Bool.false_eq_true, if_false, mixdown,
    ← hc, if_pos hlen, if_pos hp]
  have hfun : combined.map (fun x => x / peakAbs combined * (19 / 20)) =
      combined.map (fun x => x * (19 / 20 / peakAbs combined)) := by
    apply List.map_congr_left
    intro a _
    rw [div_mul_eq_mul_div, mul_div_assoc]
  rw [hfun, peakAbs_map_mul _ (by positivity), mul_comm]
  exact div_mul_cancel₀ _ (ne_of_gt hp)

theorem stop_peak_normalized_spot :
    (∃ x ∈ mixCombine ([[1]] : List Chunk).flatten ([[1]] : List Chunk).flatten,
       x ≠ 0) ∧
    peakAbs (AudioRecorder.stop ⟨true, [[1]], [[1]]⟩).2 = 19 / 20 := by
  have hnz : ∃ x ∈ mixCombine ([[1]] : List Chunk).flatten
      ([[1]] : List Chunk).flatten, x ≠ 0 := by
    refine ⟨1, ?_, one_ne_zero⟩
    norm_num [mixCombine]
  exact ⟨hnz, stop_peak_normalized ⟨true, [[1]], [[1]]⟩ (by decide) (by decide) hnz⟩

/-- Claim C8: mixing two identical-length silent (all-zero) non-empty sources
yields an all-zero result of that length: the peak is `0`, so the
normalisation step is skipped and no division by zero occurs. -/
theorem stop_silent_sources (s : AudioRecorderState) (L : Nat) (hL : 0 < L)
    (hm : s.mic_data ≠ []) (hd : s.desktop_data ≠ [])
    (hmz : s.mic_data.flatten = List.replicate L 0)
    (hdz : s.desktop_data.flatten = List.replicate L 0) :
    (AudioRecorder.stop s).2 = List.replicate L 0 := by
  have hm' : s.mic_data.isEmpty = false := List.isEmpty_eq_false.mpr hm
  have hd' : s.desktop_data.isEmpty = false := List.isEmpty_eq_false.mpr hd
  have hcomb : mixCombine (List.replicate L (0 : ℚ)) (List.replicate L 0) =
      List.replicate L 0 := by
    rw [mixCombine]
    simp only [List.length_replicate, Nat.min_self, List.take_replicate,
      List.zipWith_replicate, Nat.min_self]
    norm_num
  simp only [AudioRecorder.stop, hm', hd', Bool.false_eq_true, if_false, mixdown,
    hmz, hdz, hcomb, List.length_replicate, Nat.min_self, if_pos hL,
    peakAbs_replicate_zero, lt_self_iff_false, if_false]

theorem stop_silent_sources_spot :
    (0 < 1) ∧
    (AudioRecorder.stop ⟨true, [[0]], [[0]]⟩).2 = List.replicate 1 0 :=
  ⟨by decide,
   stop_silent_sources ⟨true, [[0]], [[0]]⟩ 1 (by decide) (by decide) (by decide)
     (by decide) (by decide)⟩

/-- Claim C10: `stop` reads but never clears the buffers (only `start` resets
them), so a second `stop` with no intervening `start` returns the same sample
sequence as the first. -/
theorem stop_second_time_equal (s : AudioRecorderState) :
    (AudioRecorder.stop (AudioRecorder.stop s).1).2 = (AudioRecorder.stop s).2 ∧
    (AudioRecorder.stop s).1.mic_data = s.mic_data ∧
    (AudioRecorder.stop s).1.desktop_data = s.desktop_data :=
  ⟨rfl, rfl, rfl⟩

/-- Per-source core of `RecordingOverlay.update_levels` (recorder.py 494-526).
One poll of one source: if the source's chunk buffer is non-empty the level is
recomputed from the most recent chunk as `min(1.0, np.abs(chunk).max() * 3)`;
only when the buffer is empty does the previous level decay by `0.8`. -/
def update_level (data : List Chunk) (prev : ℚ) : ℚ :=
  match data.getLast? with
  | some recent => min 1 (peakAbs recent * 3)
  | none => prev * (4 / 5)

/-- Claim C5 counterexample: the buffer holds one chunk of peak `1/10` and the
displayed level is `3/10` (what the previous poll computed from that same
chunk).  A poll with no new chunk appended recomputes `min(1, (1/10)*3) =
3/10` — the level stays constant instead of decaying to `0.8 * 3/10`.  The
source decays only when the buffer is empty; a stale non-empty buffer never
decays. -/
theorem update_level_stale_no_decay :
    update_level [[1 / 10]] (3 / 10) = 3 / 10 ∧
    (3 / 10 : ℚ) ≠ (4 / 5) * (3 / 10) := by
  constructor
  · show min 1 (peakAbs [1 / 10] * 3) = 3 / 10
    have h1 : peakAbs [1 / 10] = 1 / 10 := by
      rw [peakAbs]
      simp only [List.map_cons, List.map_nil, List.foldr_cons, List.foldr_nil]
      rw [max_eq_left (abs_nonneg _), abs_of_nonneg (by norm_num)]
    rw [h1, min_def]
    norm_num
  · norm_num

/-- Claim C5 amended: the displayed level decays by `0.8` exactly when the
source's buffer is empty; when the buffer is non-empty but stale the level is
recomputed from the last chunk, making it independent of the previous value
(hence constant across stale polls); and a poll without a new chunk never
increases a non-negative level. -/
theorem update_level_decay (data : List Chunk) (prev : ℚ) (h0 : 0 ≤ prev) :
    (data = [] → update_level data prev = prev * (4 / 5)) ∧
    (data ≠ [] → ∀ p, update_level data p = update_level data prev) ∧
    update_level data (update_level data prev) ≤ update_level data prev := by
  cases hg : data.getLast? with
  | none =>
      have hnil : data = [] := List.getLast?_eq_none_iff.mp hg
      refine ⟨fun _ => by rw [update_level, hg], fun hne => absurd hnil hne, ?_⟩
      simp only [update_level, hg]
      have h45 : 0 ≤ prev * (4 / 5) := by positivity
      nlinarith
  | some recent =>
      have hne : data ≠ [] := by
        intro h
        rw [h] at hg
        simp at hg
      refine ⟨fun hnil => absurd hnil hne,
        fun _ p => by simp only [update_level, hg], ?_⟩
      simp only [update_level, hg, le_refl]

theorem update_level_decay_spot :
    (0 : ℚ) ≤ 1 ∧
    ((([] : List Chunk) = [] → update_level [] 1 = 1 * (4 / 5)) ∧
     (([] : List Chunk) ≠ [] → ∀ p, update_level [] p = update_level [] 1) ∧
     update_level [] (update_level [] 1) ≤ update_level [] 1) :=
  ⟨by norm_num, update_level_decay [] 1 (by norm_num)⟩

/-- `x` clipped to `[-1, 1]`: `np.clip(audio, -1, 1)` elementwise. -/
def clip (x : ℚ) : ℚ := min 1 (max (-1) x)

/-- Truncation toward zero, the behaviour of `.astype(np.int16)` on a float
value already inside the int16 range. -/
def truncTowardZero (q : ℚ) : ℤ := if 0 ≤ q then ⌊q⌋ else ⌈q⌉

/-- The WAV payload written by `wav.write(filepath, SAMPLE_RATE, audio_int16)`:
the sample-rate tag and the 16-bit integer samples. -/
structure WavFile where
  sampleRate : Nat
  samples : List ℤ
deriving DecidableEq

/-- `AudioRecorder.save` (recorder.py 732-739): returns `none` (Python
`False`, no file written) exactly when the input is empty, otherwise clips
every sample to `[-1, 1]`, scales by `32767`, converts to int16 and writes a
44100 Hz file (Python returns `True`). -/
def AudioRecorder.save (audio : List ℚ) : Option WavFile :=
  if audio.length = 0 then none
  else some ⟨44100, audio.map (fun x => truncTowardZero (clip x * 32767))⟩

theorem clip_bounds (x : ℚ) : -1 ≤ clip x ∧ clip x ≤ 1 :=
  ⟨le_min (by norm_num) (le_max_left _ _), min_le_left _ _⟩

theorem truncTowardZero_abs_le {q : ℚ} {B : ℤ} (hB : 0 ≤ B)
    (h1 : -(B : ℚ) ≤ q) (h2 : q ≤ (B : ℚ)) :
    -B ≤ truncTowardZero q ∧ truncTowardZero q ≤ B := by
  rw [truncTowardZero]
  by_cases hq : 0 ≤ q
  · rw [if_pos hq]
    refine ⟨le_trans (by omega) (Int.floor_nonneg.mpr hq), ?_⟩
    calc ⌊q⌋ ≤ ⌊(B : ℚ)⌋ := Int.floor_le_floor h2
      _ = B := Int.floor_intCast B
  · rw [if_neg hq]
    have hq' : q ≤ 0 := le_of_not_le hq
    have hc0 : ⌈q⌉ ≤ 0 := by
      have h := Int.ceil_le_ceil hq'
      simpa using h
    refine ⟨?_, le_trans hc0 hB⟩
    calc -B = ⌈((-B : ℤ) : ℚ)⌉ := (Int.ceil_intCast _).symm
      _ ≤ ⌈q⌉ := Int.ceil_le_ceil (by push_cast; exact h1)

/-- Claim C9: the encoder fails (returns `none`: Python `False`, no file)
exactly when the input sample list is empty — this is the sole validation —
and on non-empty input it writes a 44100 Hz file whose samples are the inputs
clipped to `[-1, 1]`, scaled by `32767` and truncated to integers, all of
which lie in the 16-bit signed range. -/
theorem save_empty_sole_validation (audio : List ℚ) :
    (AudioRecorder.save audio = none ↔ audio = []) ∧
    (audio ≠ [] → ∃ f, AudioRecorder.save audio = some f ∧
       f.sampleRate = 44100 ∧
       f.samples = audio.map (fun x => truncTowardZero (clip x * 32767)) ∧
       ∀ z ∈ f.samples, -32767 ≤ z ∧ z ≤ 32767) := by
  constructor
  · rw [AudioRecorder.save]
    constructor
    · intro h
      by_cases hl : audio.length = 0
      · exact List.length_eq_zero.mp hl
      · rw [if_neg hl] at h
        cases h
    · intro h
      rw [h]
      simp
  · intro hne
    have hl : ¬audio.length = 0 := by
      simpa [List.length_eq_zero] using hne
    refine ⟨_, by rw [AudioRecorder.save, if_neg hl], rfl, rfl, ?_⟩
    intro z hz
    rw [List.mem_map] at hz
    obtain ⟨x, _, rfl⟩ := hz
    have hc := clip_bounds x
    have hlo : -((32767 : ℤ) : ℚ) ≤ clip x * 32767 := by
      push_cast
      nlinarith [hc.1, hc.2]
    have hhi : clip x * 32767 ≤ ((32767 : ℤ) : ℚ) := by
      push_cast
      nlinarith [hc.1, hc.2]
    exact truncTowardZero_abs_le (by norm_num) hlo hhi

theorem save_empty_sole_validation_spot :
    ([(3 : ℚ) / 2] ≠ []) ∧
    (∃ f, AudioRecorder.save [(3 : ℚ) / 2] = some f ∧
       f.sampleRate = 44100 ∧
       f.samples = [(3 : ℚ) / 2].map (fun x => truncTowardZero (clip x * 32767)) ∧
       ∀ z ∈ f.samples, -32767 ≤ z ∧ z ≤ 32767) :=
  ⟨by decide, (save_empty_sole_validation [(3 : ℚ) / 2]).2 (by decide)⟩

/-- One entry of `sd.query_devices()`: display name and input-channel count. -/
structure RawDevice where
  name : List Char
  max_input_channels : Nat
deriving DecidableEq

/-- Does `kw` occur at the front of `hay`? -/
def matchesFront (kw hay : List Char) : Bool :=
  match kw, hay with
  | [], _ => true
  | _ :: _, [] => false
  | c :: ck, h :: hs => c == h && matchesFront ck hs

/-- Python's `kw in s`: contiguous-substring containment on characters. -/
def containsSeq (kw : List Char) : List Char → Bool
  | [] => kw.isEmpty
  | h :: t => matchesFront kw (h :: t) || containsSeq kw t

/-- `name.lower()`, character-wise. -/
def lowerName (n : List Char) : List Char := n.map Char.toLower

/-- Names containing these alias the OS default device and are skipped
entirely (recorder.py 564-566). -/
def virtualMapperKeywords : List (List Char) :=
  ["sound mapper".toList, "primary".toList]

/-- A device is classified loopback when its lowercased name contains one of
these (recorder.py 567-569). -/
def loopbackKeywords : List (List Char) :=
  ["stereo mix".toList, "what u hear".toList, "loopback".toList,
   "wave out".toList, "output".toList, "mixage".toList]

/-- Microphone-priority keywords for sorting (recorder.py 579). -/
def micPriorityKeywords : List (List Char) :=
  ["microphone".toList, "mic".toList, "headset".toList, "webcam".toList,
   "usb".toList, "realtek".toList, "input".toList]

/-- Strict keywords used by `get_default_mic` (recorder.py 597-600). -/
def strictMicKeywords : List (List Char) :=
  ["microphone".toList, "mic".toList, "headset".toList]

/-- `'sound mapper' in name.lower() or 'primary' in name.lower()`. -/
def isVirtualMapperName (n : List Char) : Bool :=
  virtualMapperKeywords.any (fun kw => containsSeq kw (lowerName n))

/-- `any(kw in name.lower() for kw in [...])` over the loopback keywords. -/
def isLoopbackName (n : List Char) : Bool :=
  loopbackKeywords.any (fun kw => containsSeq kw (lowerName n))

/-- `AudioRecorder.get_input_devices` (recorder.py 555-573): enumerate the
catalog, keep devices with at least one input channel, skip virtual mappers,
and tag each survivor with its loopback classification. -/
def get_input_devices (catalog : List RawDevice) : List (Nat × List Char × Bool) :=
  catalog.enum.filterMap (fun p =>
    if 0 < p.2.max_input_channels then
      if isVirtualMapperName p.2.name then none
      else some (p.1, p.2.name, isLoopbackName p.2.name)
    else none)

/-- Python sort key `(0 if any(kw in name.lower()) else 1, index)`. -/
def micSortKey (p : Nat × List Char) : Nat × Nat :=
  (if micPriorityKeywords.any (fun kw => containsSeq kw (lowerName p.2)) then 0
   else 1, p.1)

/-- Boolean lexicographic order on mic sort keys. -/
def micKeyLe (a b : Nat × List Char) : Bool :=
  Nat.blt (micSortKey a).1 (micSortKey b).1 ||
  (Nat.beq (micSortKey a).1 (micSortKey b).1 &&
   Nat.ble (micSortKey a).2 (micSortKey b).2)

/-- `AudioRecorder.get_microphones` (recorder.py 575-584): the non-loopback
input devices, sorted with priority keywords first and ties broken by device
index.  Sort keys are distinct (the index is a tiebreaker), so the sorted
list is the same for any sorting algorithm; `mergeSort` stands in for
Python's stable sort. -/
def get_microphones (catalog : List RawDevice) : List (Nat × List Char) :=
  (((get_input_devices catalog).filter (fun t => !t.2.2)).map
    (fun t => (t.1, t.2.1))).mergeSort micKeyLe

/-- `AudioRecorder.get_loopback_devices` (recorder.py 586-588). -/
def get_loopback_devices (catalog : List RawDevice) : List (Nat × List Char) :=
  ((get_input_devices catalog).filter (fun t => t.2.2)).map (fun t => (t.1, t.2.1))

/-- `AudioRecorder.get_default_mic` (recorder.py 590-603): first microphone
whose name matches a strict keyword, else the first microphone, else none. -/
def get_default_mic (catalog : List RawDevice) : Option Nat :=
  let mics := get_microphones catalog
  if mics.isEmpty then none
  else
    match mics.find? (fun p =>
        strictMicKeywords.any (fun kw => containsSeq kw (lowerName p.2))) with
    | some p => some p.1
    | none => mics.head?.map Prod.fst

/-- `AudioRecorder.get_default_loopback` (recorder.py 605-608). -/
def get_default_loopback (catalog : List RawDevice) : Option Nat :=
  (get_loopback_devices catalog).head?.map Prod.fst

theorem mem_get_input_devices {catalog : List RawDevice} {i : Nat}
    {n : List Char} {lb : Bool} :
    (i, n, lb) ∈ get_input_devices catalog ↔
      ∃ d, catalog[i]? = some d ∧ 0 < d.max_input_channels ∧
        isVirtualMapperName d.name = false ∧ n = d.name ∧
        lb = isLoopbackName d.name := by
  rw [get_input_devices, List.mem_filterMap]
  constructor
  · rintro ⟨⟨j, d⟩, hmem, hf⟩
    by_cases h1 : 0 < d.max_input_channels
    · by_cases h2 : isVirtualMapperName d.name = true
      · simp [h1, h2] at hf
      · rw [if_pos h1, if_neg h2] at hf
        rw [Bool.not_eq_true] at h2
        simp only [Option.some.injEq, Prod.mk.injEq] at hf
        obtain ⟨rfl, h5, h6⟩ := hf
        exact ⟨d, List.mem_enum_iff_getElem?.mp hmem, h1, h2, h5.symm, h6.symm⟩
    · simp [h1] at hf
  · rintro ⟨d, hd, h1, h2, rfl, rfl⟩
    exact ⟨(i, d), List.mem_enum_iff_getElem?.mpr hd, by simp [if_pos h1, h2]⟩

theorem mem_get_microphones {catalog : List RawDevice} {i : Nat} {n : List Char} :
    (i, n) ∈ get_microphones catalog ↔
      (i, n, false) ∈ get_input_devices catalog := by
  rw [get_microphones, List.mem_mergeSort, List.mem_map]
  constructor
  · rintro ⟨⟨a, b, c⟩, ht, heq⟩
    rw [List.mem_filter] at ht
    obtain ⟨hmem, hflag⟩ := ht
    injection heq with h1 h2
    subst h1 h2
    simp only [Bool.not_eq_eq_eq_not, Bool.not_true] at hflag
    rwa [hflag] at hmem
  · intro h
    exact ⟨(i, n, false), List.mem_filter.mpr ⟨h, rfl⟩, rfl⟩

theorem mem_get_loopback_devices {catalog : List RawDevice} {i : Nat}
    {n : List Char} :
    (i, n) ∈ get_loopback_devices catalog ↔
      (i, n, true) ∈ get_input_devices catalog := by
  rw [get_loopback_devices, List.mem_map]
  constructor
  · rintro ⟨⟨a, b, c⟩, ht, heq⟩
    rw [List.mem_filter] at ht
    obtain ⟨hmem, hflag⟩ := ht
    injection heq with h1 h2
    subst h1 h2
    simp only at hflag
    rwa [hflag] at hmem
  · intro h
    exact ⟨(i, n, true), List.mem_filter.mpr ⟨h, rfl⟩, rfl⟩

theorem input_device_index_unique {catalog : List RawDevice} {i : Nat}
    {n n' : List Char} {lb lb' : Bool}
    (h : (i, n, lb) ∈ get_input_devices catalog)
    (h' : (i, n', lb') ∈ get_input_devices catalog) : n = n' ∧ lb = lb' := by
  rw [mem_get_input_devices] at h h'
  obtain ⟨d, hd, _, _, hn, hlb⟩ := h
  obtain ⟨d', hd', _, _, hn', hlb'⟩ := h'
  rw [hd] at hd'
  injection hd' with hdd
  subst hdd
  exact ⟨hn.trans hn'.symm, hlb.trans hlb'.symm⟩

/-- Claim C6: `get_microphones` and `get_loopback_devices` partition the
enumerated input devices: no device index appears in both, and a pair
`(index, name)` belongs to one of the two lists exactly when some entry for
that index and name survives `get_input_devices` — equivalently, when the
device is an input device whose name does not contain a virtual-router
keyword (such names are excluded from `get_input_devices` by construction). -/
theorem device_lists_partition (catalog : List RawDevice) :
    (∀ i n n', (i, n) ∈ get_microphones catalog →
       (i, n') ∈ get_loopback_devices catalog → False) ∧
    (∀ i n, ((i, n) ∈ get_microphones catalog ∨
        (i, n) ∈ get_loopback_devices catalog) ↔
      ((∃ lb, (i, n, lb) ∈ get_input_devices catalog) ∧
        isVirtualMapperName n = false)) := by
  constructor
  · intro i n n' hm hl
    rw [mem_get_microphones] at hm
    rw [mem_get_loopback_devices] at hl
    exact absurd (input_device_index_unique hm hl).2 (by simp)
  · intro i n
    have hnv : ∀ lb : Bool, (i, n, lb) ∈ get_input_devices catalog →
        isVirtualMapperName n = false := by
      intro lb hmem
      rw [mem_get_input_devices] at hmem
      obtain ⟨d, _, _, hv, rfl, _⟩ := hmem
      exact hv
    constructor
    · rintro (hm | hl)
      · rw [mem_get_microphones] at hm
        exact ⟨⟨false, hm⟩, hnv false hm⟩
      · rw [mem_get_loopback_devices] at hl
        exact ⟨⟨true, hl⟩, hnv true hl⟩
    · rintro ⟨⟨lb, hmem⟩, _⟩
      cases lb
      · exact Or.inl (mem_get_microphones.mpr hmem)
      · exact Or.inr (mem_get_loopback_devices.mpr hmem)

/-- A two-device catalog: a USB microphone and a Stereo Mix loopback. -/
def catalog0 : List RawDevice :=
  [⟨"usb microphone".toList, 2⟩, ⟨"stereo mix (realtek)".toList, 2⟩]

theorem device_lists_partition_spot :
    ((∃ lb, (0, "usb microphone".toList, lb) ∈ get_input_devices catalog0) ∧
      isVirtualMapperName "usb microphone".toList = false) ∧
    ((0, "usb microphone".toList) ∈ get_microphones catalog0 ∨
      (0, "usb microphone".toList) ∈ get_loopback_devices catalog0) := by
  have h : (∃ lb, (0, "usb microphone".toList, lb) ∈ get_input_devices catalog0) ∧
      isVirtualMapperName "usb microphone".toList = false := by
    refine ⟨⟨false, ?_⟩, by decide⟩
    decide
  exact ⟨h, ((device_lists_partition catalog0).2 0 "usb microphone".toList).mpr h⟩

/-- The spec's error taxonomy for `start`.  The Python `start` contains no
raise statement, so the faithful translation below never produces either
value; the channel exists so the spec's claims about raised errors can be
stated (and refuted) against the code. -/
inductive StartError where
  | alreadyRecording
  | noSourceAvailable
deriving DecidableEq

/-- What `start` leaves behind: the new recorder state plus whether a capture
worker thread was spawned for each source. -/
structure StartResult where
  state : AudioRecorderState
  micWorkerSpawned : Bool
  desktopWorkerSpawned : Bool
deriving DecidableEq

/-- `AudioRecorder.start` (recorder.py 636-686): unconditionally sets
`is_recording = true` and resets both buffers (no re-entrancy guard),
resolves unspecified devices via the catalog defaults, and spawns a worker
for each source requested by `mode` whose device resolved — a missing device
only prints a warning.  There is no raise path: the result is always
`Except.ok`. -/
def AudioRecorder.start (s : AudioRecorderState) (mode : String)
    (mic_device desktop_device : Option Nat) (catalog : List RawDevice) :
    Except StartError StartResult :=
  let s1 : AudioRecorderState :=
    { s with is_recording := true, mic_data := [], desktop_data := [] }
  let micDev := match mic_device with
    | some d => some d
    | none => get_default_mic catalog
  let deskDev := match desktop_device with
    | some d => some d
    | none => get_default_loopback catalog
  Except.ok
    { state := s1
      micWorkerSpawned := (mode == "mic" || mode == "both") && micDev.isSome
      desktopWorkerSpawned :=
        (mode == "desktop" || mode == "both") && deskDev.isSome }

theorem get_default_mic_nil : get_default_mic [] = none := by
  simp [get_default_mic, get_microphones, get_input_devices, List.mergeSort_nil]

theorem get_default_loopback_nil : get_default_loopback [] = none := rfl

/-- Claim C3 counterexample: with `is_recording = true` and a non-empty mic
buffer, calling `start` again raises nothing (`Except.ok`) and resets both
buffers to empty — the opposite of "raises AlreadyRecordingError and leaves
the buffers untouched". -/
theorem start_while_recording_resets :
    AudioRecorder.start ⟨true, [[1]], [[1]]⟩ "both" none none [] =
      Except.ok ⟨⟨true, [], []⟩, false, false⟩ ∧
    ([[1]] : List Chunk) ≠ [] := by
  constructor
  · simp only [AudioRecorder.start, get_default_mic_nil, get_default_loopback_nil]
    rfl
  · decide

/-- Claim C3 amended: `start` while a session is already recording does not
raise; it returns successfully, keeps `is_recording = true`, and silently
resets both source buffers to empty.  (The spec mandates an
AlreadyRecordingError guard for reimplementations; the source has none.) -/
theorem start_while_recording (s : AudioRecorderState) (mode : String)
    (micD deskD : Option Nat) (catalog : List RawDevice)
    (h : s.is_recording = true) :
    ∃ r, AudioRecorder.start s mode micD deskD catalog = Except.ok r ∧
      r.state.is_recording = true ∧ r.state.mic_data = [] ∧
      r.state.desktop_data = [] :=
  ⟨_, rfl, rfl, rfl, rfl⟩

theorem start_while_recording_spot :
    (⟨true, [[1]], []⟩ : AudioRecorderState).is_recording = true ∧
    ∃ r, AudioRecorder.start ⟨true, [[1]], []⟩ "mic" none none [] =
        Except.ok r ∧
      r.state.is_recording = true ∧ r.state.mic_data = [] ∧
      r.state.desktop_data = [] :=
  ⟨rfl, start_while_recording ⟨true, [[1]], []⟩ "mic" none none [] rfl⟩

/-- Claim C4 counterexample: requesting the mic with an empty device catalog
(zero usable devices) raises nothing: `start` returns `Except.ok` with no
worker spawned and `is_recording = true` — it proceeds with no workers
instead of surfacing NoSourceAvailableError. -/
theorem start_no_source_proceeds :
    AudioRecorder.start ⟨false, [], []⟩ "mic" none none [] =
      Except.ok ⟨⟨true, [], []⟩, false, false⟩ := by
  simp only [AudioRecorder.start, get_default_mic_nil, get_default_loopback_nil]
  rfl

/-- Claim C4 amended: when zero usable devices resolve for the requested mode
(mic mode with no microphone, desktop mode with no loopback, or both mode
with neither), `start` does not surface an error: it returns successfully
with no worker spawned and `is_recording = true`, printing only warnings; the
absence of data is discovered at `stop` as an empty result. -/
theorem start_no_source (s : AudioRecorderState) (mode : String)
    (micD deskD : Option Nat) (catalog : List RawDevice)
    (h : (mode = "mic" ∧ micD = none ∧ get_default_mic catalog = none) ∨
         (mode = "desktop" ∧ deskD = none ∧
           get_default_loopback catalog = none) ∨
         (mode = "both" ∧ micD = none ∧ get_default_mic catalog = none ∧
           deskD = none ∧ get_default_loopback catalog = none)) :
    ∃ r, AudioRecorder.start s mode micD deskD catalog = Except.ok r ∧
      r.micWorkerSpawned = false ∧ r.desktopWorkerSpawned = false ∧
      r.state.is_recording = true := by
  rcases h with ⟨rfl, rfl, hm⟩ | ⟨rfl, rfl, hd⟩ | ⟨rfl, rfl, hm, rfl, hd⟩
  · exact ⟨_, rfl, by simp [AudioRecorder.start, hm], by rfl, rfl⟩
  · exact ⟨_, rfl, by rfl, by simp [AudioRecorder.start, hd], rfl⟩
  · exact ⟨_, rfl, by simp [AudioRecorder.start, hm],
      by simp [AudioRecorder.start, hd], rfl⟩

theorem start_no_source_spot :
    ((("mic" : String) = "mic" ∧ (none : Option Nat) = none ∧
        get_default_mic [] = none) ∨
      (("mic" : String) = "desktop" ∧ (none : Option Nat) = none ∧
        get_default_loopback [] = none) ∨
      (("mic" : String) = "both" ∧ (none : Option Nat) = none ∧
        get_default_mic [] = none ∧ (none : Option Nat) = none ∧
        get_default_loopback [] = none)) ∧
    ∃ r, AudioRecorder.start ⟨false, [], []⟩ "mic" none none [] =
        Except.ok r ∧
      r.micWorkerSpawned = false ∧ r.desktopWorkerSpawned = false ∧
      r.state.is_recording = true :=
  ⟨Or.inl ⟨rfl, rfl, get_default_mic_nil⟩,
   start_no_source ⟨false, [], []⟩ "mic" none none []
     (Or.inl ⟨rfl, rfl, get_default_mic_nil⟩)⟩

end ColdCallMonitor
